import Mathlib

set_option autoImplicit false

namespace Isupipe

/-!
Shallow embedding of the caching core of the isupipe livestreaming backend:
the generic concurrent keyed store, the credential-verification cache used by
`bcryptCompairHandler`, the per-stream moderation word cache used by
`getNgwords`, `postLivecommentHandler` and `moderateHandler`, and the
profile-assembly cache used by `getUserResponse`.
-/

/--
Modelled from the spec: the generic thread-safe store `Map[K, V]`
(`ConcurrentKeyedStore` in the spec, section 4.1) is declared outside the
available source files; its sequential behaviour is Load / Store / Delete on an
association list, newest binding first.
-/
structure Map (K V : Type) where
  entries : List (K × V)
deriving DecidableEq

/-- `Load(key) -> (value, found)`: `none` models `found = false`. -/
def Map.Load {K V : Type} [DecidableEq K] (m : Map K V) (k : K) : Option V :=
  (m.entries.find? (fun e => decide (e.1 = k))).map (fun e => e.2)

/-- `Store(key, value)`: the new binding shadows any earlier one. -/
def Map.Store {K V : Type} (m : Map K V) (k : K) (v : V) : Map K V :=
  ⟨(k, v) :: m.entries⟩

/-- `Delete(key)`: removes every binding of the key; a no-op on absent keys. -/
def Map.Delete {K V : Type} [DecidableEq K] (m : Map K V) (k : K) : Map K V :=
  ⟨m.entries.filter (fun e => decide (e.1 ≠ k))⟩

theorem Map.Load_Store_self {K V : Type} [DecidableEq K] (m : Map K V) (k : K) (v : V) :
    (m.Store k v).Load k = some v := by
  simp [Map.Load, Map.Store, List.find?]

theorem Map.Load_Delete_self {K V : Type} [DecidableEq K] (m : Map K V) (k : K) :
    (m.Delete k).Load k = none := by
  obtain ⟨l⟩ := m
  simp only [Map.Delete, Map.Load, Option.map_eq_none]
  induction l with
  | nil => simp
  | cons e tl ih =>
    by_cases h : e.1 = k
    · simp [List.filter, h, ih]
    · simp [List.filter, h, List.find?, ih]

/-! ## Credential verification cache (`bcryptHandler.go`) -/

/-- Outcome of `bcrypt.CompareHashAndPassword`, the verification collaborator. -/
inductive BcryptOutcome
  | ok
  | mismatch
  | otherError
deriving DecidableEq

/-- Observable result of `bcryptCompairHandler`. -/
inductive AuthResult
  | success
  | unauthorized
  | internalError
deriving DecidableEq

/-- The composite key built on the read path: `req.HashedPassword + ":" + req.Password`
(`bcryptHandler.go` line 85). -/
def credLoadKey (hashedPassword password : String) : String :=
  hashedPassword ++ ":" ++ password

/-- The composite key built on both write paths:
`req.HashedPassword + "-" + req.Password` (`bcryptHandler.go` lines 98 and 104). -/
def credStoreKey (hashedPassword password : String) : String :=
  hashedPassword ++ "-" ++ password

/--
`bcryptCompairHandler`: consult the cache under the load key; on a hit
short-circuit, on a miss run the bcrypt comparison and record the boolean
outcome under the store key.
-/
def bcryptCompairHandler (cache : Map String Bool) (hashedPassword password : String)
    (compareOutcome : BcryptOutcome) : AuthResult × Map String Bool :=
  match cache.Load (credLoadKey hashedPassword password) with
  | some true => (.success, cache)
  | some false => (.unauthorized, cache)
  | none =>
    match compareOutcome with
    | .mismatch =>
      (.unauthorized, cache.Store (credStoreKey hashedPassword password) false)
    | .otherError => (.internalError, cache)
    | .ok => (.success, cache.Store (credStoreKey hashedPassword password) true)

/-! ## Data model of the moderation and livecomment handlers
(`livecomment_handler.go`) -/

/-- Row of the `ng_words` table (`NGWord` in `livecomment_handler.go`). -/
structure NGWord where
  id : Int
  userId : Int
  livestreamId : Int
  word : String
  createdAt : Int
deriving DecidableEq

/-- Row of the `livecomments` table (`LivecommentModel`). -/
structure LivecommentModel where
  id : Int
  userId : Int
  livestreamId : Int
  comment : String
  tip : Int
  createdAt : Int
deriving DecidableEq

/--
Modelled from the spec: the livestream entity (`LivestreamModel`) is declared
outside the available source files; the handlers read only its `ID` and its
owner `UserID`, so only those fields are modelled.
-/
structure LivestreamModel where
  id : Int
  userId : Int
deriving DecidableEq

/-- The relational store consulted by the handlers on cache misses. -/
structure DB where
  ngWords : List NGWord
  livecomments : List LivecommentModel
  livestreams : List LivestreamModel
deriving DecidableEq

/--
Modelled from the spec: `getLivestream` (declared outside the available source
files) fetches the livestream row by id, with `sql.ErrNoRows`-style failure
when it is absent.
-/
inductive DBErr
  | noRows
  | queryError
deriving DecidableEq

def getLivestream (db : DB) (lsId : Int) : Except DBErr LivestreamModel :=
  match db.livestreams.find? (fun ls => decide (ls.id = lsId)) with
  | some ls => .ok ls
  | none => .error .noRows

/-- Ordering relation of `ORDER BY created_at DESC`: most-recent-first. -/
def ngMoreRecent (a b : NGWord) : Prop := b.createdAt ≤ a.createdAt

instance : DecidableRel ngMoreRecent :=
  fun a b => inferInstanceAs (Decidable (b.createdAt ≤ a.createdAt))

instance : IsTotal NGWord ngMoreRecent := ⟨fun a b => le_total b.createdAt a.createdAt⟩

instance : IsTrans NGWord ngMoreRecent := ⟨fun _ _ _ h h2 => le_trans h2 h⟩

/-- `SELECT * FROM ng_words WHERE livestream_id = ? ORDER BY created_at DESC`. -/
def fetchNgWords (db : DB) (lsId : Int) : List NGWord :=
  List.insertionSort ngMoreRecent
    (db.ngWords.filter (fun w => decide (w.livestreamId = lsId)))

/-- `listStartsWith s sub`: `sub` is a leading segment of `s` (character-exact). -/
def listStartsWith : List Char → List Char → Bool
  | _, [] => true
  | [], _ :: _ => false
  | a :: as, b :: bs => a == b && listStartsWith as bs

/-- `listContainsSub s sub`: `sub` occurs contiguously somewhere inside `s`. -/
def listContainsSub (s sub : List Char) : Bool :=
  match s with
  | [] => listStartsWith [] sub
  | a :: as => listStartsWith (a :: as) sub || listContainsSub as sub

/-- `strings.Contains(s, sub)`: case-sensitive substring containment. -/
def strContains (s sub : String) : Bool :=
  listContainsSub s.data sub.data

/-- The spam test of `postLivecommentHandler` (lines 250-256): some NG word of
the consulted list is contained in the comment, compared verbatim (the
`toLowerIfASCII` normalization is commented out in the source). -/
def commentIsSpam (comment : String) (ngwords : List NGWord) : Bool :=
  ngwords.any (fun w => strContains comment w.word)

/-! ## The moderation word cache -/

/--
The cache-or-fetch step of `postLivecommentHandler` (lines 238-246): the load
uses `livestreamModel.UserID` as the key, while the miss path queries by
`livestreamModel.ID` and stores under `livestreamModel.ID`.
-/
def postLivecommentNgWords (cache : Map Int (List NGWord)) (ls : LivestreamModel)
    (db : DB) : List NGWord × Map Int (List NGWord) :=
  match cache.Load ls.userId with
  | some ws => (ws, cache)
  | none =>
    let ws := fetchNgWords db ls.id
    (ws, cache.Store ls.id ws)

/-- The key of the cache load in `postLivecommentHandler` (line 239). -/
def postLivecommentLoadKey (ls : LivestreamModel) : Int := ls.userId

/-- The key of the cache store in `postLivecommentHandler` (line 245). -/
def postLivecommentStoreKey (ls : LivestreamModel) : Int := ls.id

/-- Result of posting a livecomment after the spam check. -/
inductive PostCommentResult
  | created (m : LivecommentModel)
  | badRequest
deriving DecidableEq

/-- The reject-or-persist step of `postLivecommentHandler` (lines 250-276)
given the consulted word list `ws`: a matching NG word yields a 400, otherwise
the comment row is inserted. -/
def postLivecommentInsert (db : DB) (userId lsId : Int) (comment : String)
    (tip nowSec newId : Int) (ws : List NGWord) : PostCommentResult × DB :=
  if commentIsSpam comment ws then (.badRequest, db)
  else
    let m : LivecommentModel := ⟨newId, userId, lsId, comment, tip, nowSec⟩
    (.created m, { db with livecomments := db.livecomments ++ [m] })

/-- `GetWords(streamID)` as exercised by `getNgwords` (lines 172-184): return
the cached list when present, otherwise fetch the authoritative ordered list,
store it under the stream id and return it. -/
def GetWords (db : DB) (cache : Map Int (List NGWord)) (lsId : Int) :
    List NGWord × Map Int (List NGWord) :=
  match cache.Load lsId with
  | some ws => (ws, cache)
  | none =>
    let ws := fetchNgWords db lsId
    (ws, cache.Store lsId ws)

/-- Observable result of `getNgwords`. -/
inductive NgwordsResp
  | okList (ws : List NGWord)
  | internalError
deriving DecidableEq

/-- Output of `getNgwords`: the response, the cache afterwards and whether the
word-cache load/store section (lines 172-184) was reached at all. -/
structure NgwordsOut where
  resp : NgwordsResp
  cache : Map Int (List NGWord)
  cacheAccessed : Bool
deriving DecidableEq

/--
`getNgwords` (lines 138-191) after session verification and path parsing:
a failed livestream fetch or a requester other than the stream owner yields an
empty 200 list without touching the cache; otherwise the cache-or-fetch runs,
with `queryResult` the outcome of the `ng_words` select on a miss.
-/
def getNgwords (db : DB) (cache : Map Int (List NGWord)) (userID lsId : Int)
    (queryResult : Except DBErr (List NGWord)) : NgwordsOut :=
  match getLivestream db lsId with
  | .error _ => ⟨.okList [], cache, false⟩
  | .ok ls =>
    if ls.userId ≠ userID then ⟨.okList [], cache, false⟩
    else
      match cache.Load lsId with
      | some ws => ⟨.okList ws, cache, true⟩
      | none =>
        match queryResult with
        | .error .noRows => ⟨.okList [], cache, true⟩
        | .error .queryError => ⟨.internalError, cache, true⟩
        | .ok ws => ⟨.okList ws, cache.Store lsId ws, true⟩

/-! ## The moderation write path (`moderateHandler`, lines 365-437) -/

/-- Observable result of `moderateHandler`. -/
inductive ModerateResp
  | created (wordId : Int)
  | badRequest
  | internalError
deriving DecidableEq

/-- Output of `moderateHandler`: the response, the database after the
transaction, and the scheduled cache invalidation — the instant (commit time
plus the fixed 500 ms sleep of line 431) and key of the `Delete` of line 432,
when one happens. -/
structure ModerateOut where
  resp : ModerateResp
  db : DB
  cacheDeleteAt : Option (Nat × Int)
deriving DecidableEq

/-- The transactional effect of the moderation write: insert the NG word row
and delete the livecomments of that stream containing the word
(`comment like CONCAT('%', ?, '%')`). -/
def moderateDbWrite (db : DB) (userID lsId : Int) (word : String)
    (nowSec newWordId : Int) : DB :=
  { db with
    ngWords := db.ngWords ++ [⟨newWordId, userID, lsId, word, nowSec⟩],
    livecomments := db.livecomments.filter
      (fun cm => !(decide (cm.livestreamId = lsId) && strContains cm.comment word)) }

/--
`moderateHandler` after session verification and body parsing: any livestream
fetch error yields a 500; a requester other than the owner yields a 400 with
the transaction rolled back; otherwise the write commits at instant `nowMs`
and the cache delete of the stream's entry is scheduled for `nowMs + 500`.
-/
def moderateHandler (db : DB) (userID lsId : Int) (word : String)
    (nowSec newWordId : Int) (nowMs : Nat) : ModerateOut :=
  match getLivestream db lsId with
  | .error _ => ⟨.internalError, db, none⟩
  | .ok ls =>
    if ls.userId ≠ userID then ⟨.badRequest, db, none⟩
    else
      ⟨.created newWordId, moderateDbWrite db userID lsId word nowSec newWordId,
        some (nowMs + 500, lsId)⟩

/-- The cache as visible at instant `t`: a scheduled delete has happened
exactly when its instant has been reached. -/
def cacheVisibleAt (cache : Map Int (List NGWord)) (sched : Option (Nat × Int))
    (t : Nat) : Map Int (List NGWord) :=
  match sched with
  | none => cache
  | some (tDel, k) => if tDel ≤ t then cache.Delete k else cache

/-- The database as visible at instant `t`: the transaction's effect is
visible from its commit instant on. -/
def dbVisibleAt (old new : DB) (commitAt t : Nat) : DB :=
  if commitAt ≤ t then new else old

/-! ## Profile assembly cache (`getUserResponse` in `src/unnamed/part_000`,
lines 457-533) -/

/-- Theme part of an assembled profile (`Theme`). -/
structure Theme where
  id : Int
  darkMode : Bool
deriving DecidableEq

/-- Assembled profile response (`User`). -/
structure User where
  id : Int
  name : String
  displayName : String
  description : String
  theme : Theme
  iconHash : String
deriving DecidableEq

/-- Row of the `users` table (`UserModel`). -/
structure UserModel where
  id : Int
  name : String
  displayName : String
  description : String
  hashedPassword : String
  iconHash : Option String
deriving DecidableEq

/-- Row of the `themes` table (`ThemeModel`). -/
structure ThemeModel where
  id : Int
  userId : Int
  darkMode : Bool
deriving DecidableEq

/-- Entry of the profile cache (`cachedUser`): the assembled profile and the
instant it was fetched, in milliseconds. -/
structure CachedUser where
  user : User
  fetchedAt : Nat
deriving DecidableEq

instance instDecEqExcept {ε α : Type} [DecidableEq ε] [DecidableEq α] :
    DecidableEq (Except ε α)
  | .error a, .error b =>
    if h : a = b then .isTrue (by rw [h]) else .isFalse (by simp [h])
  | .error _, .ok _ => .isFalse (by simp)
  | .ok _, .error _ => .isFalse (by simp)
  | .ok a, .ok b =>
    if h : a = b then .isTrue (by rw [h]) else .isFalse (by simp [h])

/-- Output of `getUserResponse`: the result, the profile cache afterwards and
whether the source of truth was consulted (the code past the fresh-entry
early return was reached). -/
structure GetUserOut where
  result : Except DBErr User
  cache : Map Int CachedUser
  consultedSource : Bool
deriving DecidableEq

/--
`fillUserResponse` (lines 494-533): fetch the theme row, take the stored icon
hash when the user row has one, otherwise derive it from the icon file or the
fallback image — `iconHashRes` is the outcome of that filesystem-and-hash
block, an external collaborator here.
-/
def fillUserResponse (um : UserModel) (themeRes : Except DBErr ThemeModel)
    (iconHashRes : Except DBErr String) : Except DBErr User :=
  match themeRes with
  | .error e => .error e
  | .ok tm =>
    match um.iconHash with
    | some h =>
      .ok ⟨um.id, um.name, um.displayName, um.description, ⟨tm.id, tm.darkMode⟩, h⟩
    | none =>
      match iconHashRes with
      | .error e => .error e
      | .ok h =>
        .ok ⟨um.id, um.name, um.displayName, um.description, ⟨tm.id, tm.darkMode⟩, h⟩

/-- The rebuild path of `getUserResponse` (lines 472-491), shared by the miss
and the stale cases: fetch the canonical row (`rowRes` is the outcome of
`SELECT * FROM users WHERE id = ?`), assemble the profile, and only on success
overwrite the cache entry with the new value stamped `now`. -/
def getUserRebuild (cache : Map Int CachedUser) (id : Int) (now : Nat)
    (rowRes : Except DBErr UserModel) (themeRes : Except DBErr ThemeModel)
    (iconHashRes : Except DBErr String) : GetUserOut :=
  match rowRes with
  | .error e => ⟨.error e, cache, true⟩
  | .ok model =>
    match fillUserResponse model themeRes iconHashRes with
    | .error e => ⟨.error e, cache, true⟩
    | .ok user => ⟨.ok user, cache.Store id ⟨user, now⟩, true⟩

/--
`getUserResponse` (lines 464-492): a cached entry satisfying
`fetchedAt + 1300ms > now` (`fetched.fetchedAt.Add(1*time.Second+300*time.Millisecond).After(now)`)
is returned as-is without consulting the source; otherwise the profile is
rebuilt.
-/
def getUserResponse (cache : Map Int CachedUser) (id : Int) (now : Nat)
    (rowRes : Except DBErr UserModel) (themeRes : Except DBErr ThemeModel)
    (iconHashRes : Except DBErr String) : GetUserOut :=
  match cache.Load id with
  | some fetched =>
    if now < fetched.fetchedAt + 1300 then ⟨.ok fetched.user, cache, false⟩
    else getUserRebuild cache id now rowRes themeRes iconHashRes
  | none => getUserRebuild cache id now rowRes themeRes iconHashRes

/-! ## Helper lemmas -/

theorem listStartsWith_iff : ∀ s sub : List Char, listStartsWith s sub = true ↔ sub <+: s
  | _, [] => by simp [listStartsWith, List.nil_prefix]
  | [], _ :: _ => by simp [listStartsWith, List.prefix_nil]
  | a :: as, b :: bs => by
    rw [listStartsWith, Bool.and_eq_true, beq_iff_eq, listStartsWith_iff as bs,
      List.cons_prefix_cons]
    exact ⟨fun h => ⟨h.1.symm, h.2⟩, fun h => ⟨h.1.symm, h.2⟩⟩

theorem listContainsSub_iff : ∀ s sub : List Char, listContainsSub s sub = true ↔ sub <:+: s
  | [], sub => by
    simp [listContainsSub, listStartsWith_iff, List.infix_nil, List.prefix_nil]
  | a :: as, sub => by
    rw [listContainsSub]
    simp [listStartsWith_iff, listContainsSub_iff as sub, List.infix_cons_iff]

theorem strContains_iff (s sub : String) : strContains s sub = true ↔ sub.data <:+: s.data := by
  rw [strContains, listContainsSub_iff]

theorem getUserRebuild_consulted (cache : Map Int CachedUser) (id : Int) (now : Nat)
    (rowRes : Except DBErr UserModel) (themeRes : Except DBErr ThemeModel)
    (iconHashRes : Except DBErr String) :
    (getUserRebuild cache id now rowRes themeRes iconHashRes).consultedSource = true := by
  rcases rowRes with e | model
  · rfl
  · rcases h : fillUserResponse model themeRes iconHashRes with e | user <;>
      simp [getUserRebuild, h]

/-! ## Claim theorems -/

/--
Claim C1 (refuted by the code): recording the outcome of a bcrypt check and
then consulting the cache for the same (hash, password) pair should hit, the
store-path key being the load-path key. In `bcryptCompairHandler` the load key
joins hash and password with ":" while both store paths join with "-", so the
keys differ, the recorded entry sits under the load-miss key only, and a
repeated attempt is never served from the cache.
-/
theorem bcrypt_cache_roundtrip_broken :
    ((credStoreKey "h" "p" == credLoadKey "h" "p") = false) ∧
    ((bcryptCompairHandler ⟨[]⟩ "h" "p" .mismatch).2.Load (credLoadKey "h" "p") = none) ∧
    ((bcryptCompairHandler ⟨[]⟩ "h" "p" .mismatch).2.Load (credStoreKey "h" "p")
        = some false) ∧
    ((bcryptCompairHandler (bcryptCompairHandler ⟨[]⟩ "h" "p" .mismatch).2 "h" "p" .ok).1
        = AuthResult.success) := by decide

/--
Claim C2 (refuted by the code): the comment-post spam check should load and
store the moderation-word cache under the livestream's stream id. In
`postLivecommentHandler` the load key is `livestreamModel.UserID` while the
store key is `livestreamModel.ID`: for the livestream with id 2 owned by user
1 the keys differ, the freshly stored list is invisible to the next load, and
a cache entry of stream 1 is served to a comment post on stream 2.
-/
theorem postLivecomment_ngword_cache_key_mismatch :
    ((postLivecommentLoadKey ⟨2, 1⟩ == postLivecommentStoreKey ⟨2, 1⟩) = false) ∧
    ((postLivecommentNgWords ⟨[(1, [⟨10, 5, 1, "abc", 0⟩])]⟩ ⟨2, 1⟩
        ⟨[⟨11, 1, 2, "bad", 0⟩], [], [⟨2, 1⟩]⟩).1 = [⟨10, 5, 1, "abc", 0⟩]) ∧
    ((postLivecommentNgWords ⟨[]⟩ ⟨2, 1⟩ ⟨[⟨11, 1, 2, "bad", 0⟩], [], [⟨2, 1⟩]⟩).2.Load
        (postLivecommentLoadKey ⟨2, 1⟩) = none) ∧
    ((postLivecommentNgWords ⟨[]⟩ ⟨2, 1⟩ ⟨[⟨11, 1, 2, "bad", 0⟩], [], [⟨2, 1⟩]⟩).2.Load
        (postLivecommentStoreKey ⟨2, 1⟩) = some [⟨11, 1, 2, "bad", 0⟩]) := by decide

/--
Claim C5: a submitted comment is rejected as spam if and only if some word of
the consulted banned-word list is a case-sensitive substring of the comment,
with no normalization; otherwise the comment row is inserted as given.
-/
theorem postLivecomment_spam_substring_check
    (db : DB) (userId lsId : Int) (comment : String) (tip nowSec newId : Int)
    (ws : List NGWord) :
    (commentIsSpam comment ws = true ↔ ∃ w ∈ ws, w.word.data <:+: comment.data) ∧
    (commentIsSpam comment ws = false →
      postLivecommentInsert db userId lsId comment tip nowSec newId ws =
        (.created ⟨newId, userId, lsId, comment, tip, nowSec⟩,
          { db with livecomments :=
              db.livecomments ++ [⟨newId, userId, lsId, comment, tip, nowSec⟩] })) := by
  constructor
  · simp [commentIsSpam, List.any_eq_true, strContains_iff]
  · intro h
    simp [postLivecommentInsert, h]

/--
Witness for C5, the scenario of the spec: with banned list `["spam"]`, the
comment "this is spam" contains a banned word, and "this is fine" is accepted
and persisted.
-/
theorem postLivecomment_spam_substring_check_witness :
    (∃ w ∈ [(⟨1, 1, 42, "spam", 0⟩ : NGWord)], w.word.data <:+: "this is spam".data) ∧
    (postLivecommentInsert ⟨[], [], []⟩ 7 42 "this is fine" 0 100 1
        [⟨1, 1, 42, "spam", 0⟩] =
      (.created ⟨1, 7, 42, "this is fine", 0, 100⟩,
        ⟨[], [⟨1, 7, 42, "this is fine", 0, 100⟩], []⟩)) :=
  ⟨(postLivecomment_spam_substring_check ⟨[], [], []⟩ 7 42 "this is spam" 0 100 1
      [⟨1, 1, 42, "spam", 0⟩]).1.mp (by decide),
   (postLivecomment_spam_substring_check ⟨[], [], []⟩ 7 42 "this is fine" 0 100 1
      [⟨1, 1, 42, "spam", 0⟩]).2 (by decide)⟩

/--
Claim C4: `getUserResponse` returns the cached profile unchanged and without
consulting the source of truth exactly when a cache entry for the user exists
whose fetch instant satisfies `now < fetchedAt + 1300ms`; otherwise it
consults the source, and on a successful rebuild overwrites the entry with the
new value stamped with the current instant.
-/
theorem getUserResponse_ttl
    (cache : Map Int CachedUser) (id : Int) (now : Nat)
    (rowRes : Except DBErr UserModel) (themeRes : Except DBErr ThemeModel)
    (iconHashRes : Except DBErr String) :
    (∀ cu, cache.Load id = some cu → now < cu.fetchedAt + 1300 →
        getUserResponse cache id now rowRes themeRes iconHashRes =
          ⟨.ok cu.user, cache, false⟩) ∧
    ((getUserResponse cache id now rowRes themeRes iconHashRes).consultedSource = false →
        ∃ cu, cache.Load id = some cu ∧ now < cu.fetchedAt + 1300) ∧
    (∀ um u, (∀ cu, cache.Load id = some cu → cu.fetchedAt + 1300 ≤ now) →
        rowRes = .ok um → fillUserResponse um themeRes iconHashRes = .ok u →
        getUserResponse cache id now rowRes themeRes iconHashRes =
          ⟨.ok u, cache.Store id ⟨u, now⟩, true⟩) := by
  refine ⟨?_, ?_, ?_⟩
  · intro cu hload hfresh
    simp [getUserResponse, hload, hfresh]
  · intro hns
    rcases hL : cache.Load id with _ | cu
    · rw [getUserResponse, hL] at hns
      simp [getUserRebuild_consulted] at hns
    · rw [getUserResponse, hL] at hns
      by_cases hfresh : now < cu.fetchedAt + 1300
      · exact ⟨cu, by simp [hL], hfresh⟩
      · simp [hfresh, getUserRebuild_consulted] at hns
  · intro um u hstale hrow hfill
    rcases hL : cache.Load id with _ | cu
    · rw [getUserResponse, hL]
      simp [getUserRebuild, hrow, hfill]
    · have hnot : ¬ now < cu.fetchedAt + 1300 := not_lt.mpr (hstale cu hL)
      rw [getUserResponse, hL]
      simp [hnot, getUserRebuild, hrow, hfill]

/--
Witness for C4: a profile cached at instant 1000 is served from the cache at
instant 2000 (within the 1300 ms window), and at instant 2400 the stale entry
is rebuilt and overwritten with the new value stamped 2400.
-/
theorem getUserResponse_ttl_witness :
    (getUserResponse ⟨[(7, ⟨⟨7, "n", "dn", "d", ⟨1, false⟩, "h1"⟩, 1000⟩)]⟩ 7 2000
        (.ok ⟨7, "n", "dn", "d", "pw", some "h2"⟩) (.ok ⟨1, 7, false⟩) (.error .noRows) =
      ⟨.ok ⟨7, "n", "dn", "d", ⟨1, false⟩, "h1"⟩,
        ⟨[(7, ⟨⟨7, "n", "dn", "d", ⟨1, false⟩, "h1"⟩, 1000⟩)]⟩, false⟩) ∧
    (getUserResponse ⟨[(7, ⟨⟨7, "n", "dn", "d", ⟨1, false⟩, "h1"⟩, 1000⟩)]⟩ 7 2400
        (.ok ⟨7, "n", "dn", "d", "pw", some "h2"⟩) (.ok ⟨1, 7, false⟩) (.error .noRows) =
      ⟨.ok ⟨7, "n", "dn", "d", ⟨1, false⟩, "h2"⟩,
        Map.Store ⟨[(7, ⟨⟨7, "n", "dn", "d", ⟨1, false⟩, "h1"⟩, 1000⟩)]⟩ 7
          ⟨⟨7, "n", "dn", "d", ⟨1, false⟩, "h2"⟩, 2400⟩, true⟩) :=
  ⟨(getUserResponse_ttl ⟨[(7, ⟨⟨7, "n", "dn", "d", ⟨1, false⟩, "h1"⟩, 1000⟩)]⟩ 7 2000
      (.ok ⟨7, "n", "dn", "d", "pw", some "h2"⟩) (.ok ⟨1, 7, false⟩) (.error .noRows)).1
      ⟨⟨7, "n", "dn", "d", ⟨1, false⟩, "h1"⟩, 1000⟩ (by decide) (by decide),
   (getUserResponse_ttl ⟨[(7, ⟨⟨7, "n", "dn", "d", ⟨1, false⟩, "h1"⟩, 1000⟩)]⟩ 7 2400
      (.ok ⟨7, "n", "dn", "d", "pw", some "h2"⟩) (.ok ⟨1, 7, false⟩) (.error .noRows)).2.2
      ⟨7, "n", "dn", "d", "pw", some "h2"⟩ ⟨7, "n", "dn", "d", ⟨1, false⟩, "h2"⟩
      (by decide) rfl rfl⟩

/--
Claim C6: when no fresh cache entry exists, a failure of the canonical row
fetch (including the no-such-user case) or of the profile assembly is returned
unmodified by `getUserResponse`, and nothing is written to the profile cache.
-/
theorem getUserResponse_error_uncached
    (cache : Map Int CachedUser) (id : Int) (now : Nat)
    (rowRes : Except DBErr UserModel) (themeRes : Except DBErr ThemeModel)
    (iconHashRes : Except DBErr String) :
    (∀ cu, cache.Load id = some cu → cu.fetchedAt + 1300 ≤ now) →
    (∀ e, rowRes = .error e →
        getUserResponse cache id now rowRes themeRes iconHashRes =
          ⟨.error e, cache, true⟩) ∧
    (∀ um e, rowRes = .ok um → fillUserResponse um themeRes iconHashRes = .error e →
        getUserResponse cache id now rowRes themeRes iconHashRes =
          ⟨.error e, cache, true⟩) := by
  intro hstale
  have hreb : getUserResponse cache id now rowRes themeRes iconHashRes =
      getUserRebuild cache id now rowRes themeRes iconHashRes := by
    rcases hL : cache.Load id with _ | cu
    · rw [getUserResponse, hL]
    · have hnot : ¬ now < cu.fetchedAt + 1300 := not_lt.mpr (hstale cu hL)
      rw [getUserResponse, hL]
      simp [hnot]
  constructor
  · intro e hrow
    rw [hreb]
    simp [getUserRebuild, hrow]
  · intro um e hrow hfill
    rw [hreb]
    simp [getUserRebuild, hrow, hfill]

/--
Witness for C6: with an empty cache, a no-rows canonical fetch surfaces as the
not-found error and the cache stays empty; a failing assembly likewise.
-/
theorem getUserResponse_error_uncached_witness :
    (getUserResponse ⟨[]⟩ 7 2000 (.error .noRows) (.ok ⟨1, 7, false⟩) (.ok "h") =
      ⟨.error .noRows, ⟨[]⟩, true⟩) ∧
    (getUserResponse ⟨[]⟩ 7 2000 (.ok ⟨7, "n", "dn", "d", "pw", none⟩)
        (.error .queryError) (.ok "h") = ⟨.error .queryError, ⟨[]⟩, true⟩) :=
  ⟨(getUserResponse_error_uncached ⟨[]⟩ 7 2000 (.error .noRows) (.ok ⟨1, 7, false⟩)
      (.ok "h") (by intro cu h; simp [Map.Load] at h)).1 .noRows rfl,
   (getUserResponse_error_uncached ⟨[]⟩ 7 2000 (.ok ⟨7, "n", "dn", "d", "pw", none⟩)
      (.error .queryError) (.ok "h") (by intro cu h; simp [Map.Load] at h)).2
      ⟨7, "n", "dn", "d", "pw", none⟩ .queryError rfl rfl⟩

/--
Claim C9: on a stale cache entry, a failing rebuild makes `getUserResponse`
return the error rather than fall back to the stale value, and the stale entry
is left in the cache unchanged.
-/
theorem getUserResponse_stale_error_keeps_entry
    (cache : Map Int CachedUser) (id : Int) (now : Nat)
    (rowRes : Except DBErr UserModel) (themeRes : Except DBErr ThemeModel)
    (iconHashRes : Except DBErr String) (cu : CachedUser) (e : DBErr) :
    cache.Load id = some cu → cu.fetchedAt + 1300 ≤ now →
    (rowRes = .error e ∨
      ∃ um, rowRes = .ok um ∧ fillUserResponse um themeRes iconHashRes = .error e) →
    getUserResponse cache id now rowRes themeRes iconHashRes =
      ⟨.error e, cache, true⟩ ∧
    (getUserResponse cache id now rowRes themeRes iconHashRes).cache.Load id = some cu := by
  intro hL hstale hfail
  have hnot : ¬ now < cu.fetchedAt + 1300 := not_lt.mpr hstale
  have hmain : getUserResponse cache id now rowRes themeRes iconHashRes =
      ⟨.error e, cache, true⟩ := by
    rcases hfail with hrow | ⟨um, hrow, hfill⟩
    · rw [getUserResponse, hL]
      simp [hnot, getUserRebuild, hrow]
    · rw [getUserResponse, hL]
      simp [hnot, getUserRebuild, hrow, hfill]
  exact ⟨hmain, by rw [hmain]; exact hL⟩

/--
Witness for C9: a profile cached at instant 1000 read at instant 2400 with a
failing canonical fetch yields the error, and the stale entry is still cached.
-/
theorem getUserResponse_stale_error_keeps_entry_witness :
    getUserResponse ⟨[(7, ⟨⟨7, "n", "dn", "d", ⟨1, false⟩, "h1"⟩, 1000⟩)]⟩ 7 2400
        (.error .queryError) (.ok ⟨1, 7, false⟩) (.ok "h") =
      ⟨.error .queryError, ⟨[(7, ⟨⟨7, "n", "dn", "d", ⟨1, false⟩, "h1"⟩, 1000⟩)]⟩, true⟩ :=
  (getUserResponse_stale_error_keeps_entry
      ⟨[(7, ⟨⟨7, "n", "dn", "d", ⟨1, false⟩, "h1"⟩, 1000⟩)]⟩ 7 2400
      (.error .queryError) (.ok ⟨1, 7, false⟩) (.ok "h")
      ⟨⟨7, "n", "dn", "d", ⟨1, false⟩, "h1"⟩, 1000⟩ .queryError
      (by decide) (by decide) (.inl rfl)).1

/--
Claim C7: on the owner path of `getNgwords`, a present cache entry for the
stream id is returned exactly as stored; on a miss the authoritative word list
of the stream — most-recent-first by creation time — is stored under the same
stream id (also when it is empty) and returned.
-/
theorem getNgwords_cache_or_fetch
    (db : DB) (cache : Map Int (List NGWord)) (userID lsId : Int)
    (queryResult : Except DBErr (List NGWord)) (ls : LivestreamModel) :
    getLivestream db lsId = .ok ls → ls.userId = userID →
    ((∀ ws, cache.Load lsId = some ws →
        getNgwords db cache userID lsId queryResult = ⟨.okList ws, cache, true⟩) ∧
     (cache.Load lsId = none → queryResult = .ok (fetchNgWords db lsId) →
        getNgwords db cache userID lsId queryResult =
          ⟨.okList (fetchNgWords db lsId), cache.Store lsId (fetchNgWords db lsId), true⟩ ∧
        (cache.Store lsId (fetchNgWords db lsId)).Load lsId =
          some (fetchNgWords db lsId)) ∧
     List.Sorted ngMoreRecent (fetchNgWords db lsId)) := by
  intro hls howner
  refine ⟨?_, ?_, ?_⟩
  · intro ws hload
    rw [getNgwords.eq_def, hls]
    simp [howner, hload]
  · intro hload hq
    refine ⟨?_, Map.Load_Store_self cache lsId _⟩
    rw [getNgwords.eq_def, hls]
    simp [howner, hload, hq]
  · exact List.sorted_insertionSort ngMoreRecent _

/--
Witness for C7: a cached list is served on a hit; on a miss with no rows the
empty list is stored under the stream id and loading it afterwards hits.
-/
theorem getNgwords_cache_or_fetch_witness :
    (getNgwords ⟨[], [], [⟨1, 7⟩]⟩ ⟨[(1, [⟨5, 7, 1, "w", 0⟩])]⟩ 7 1 (.ok []) =
      ⟨.okList [⟨5, 7, 1, "w", 0⟩], ⟨[(1, [⟨5, 7, 1, "w", 0⟩])]⟩, true⟩) ∧
    (getNgwords ⟨[], [], [⟨1, 7⟩]⟩ ⟨[]⟩ 7 1 (.ok []) =
      ⟨.okList [], Map.Store ⟨[]⟩ 1 [], true⟩) ∧
    (Map.Store (⟨[]⟩ : Map Int (List NGWord)) 1 []).Load 1 = some [] :=
  ⟨(getNgwords_cache_or_fetch ⟨[], [], [⟨1, 7⟩]⟩ ⟨[(1, [⟨5, 7, 1, "w", 0⟩])]⟩ 7 1 (.ok [])
      ⟨1, 7⟩ rfl rfl).1 [⟨5, 7, 1, "w", 0⟩] rfl,
   ((getNgwords_cache_or_fetch ⟨[], [], [⟨1, 7⟩]⟩ ⟨[]⟩ 7 1 (.ok []) ⟨1, 7⟩ rfl rfl).2.1
      rfl rfl).1,
   ((getNgwords_cache_or_fetch ⟨[], [], [⟨1, 7⟩]⟩ ⟨[]⟩ 7 1 (.ok []) ⟨1, 7⟩ rfl rfl).2.1
      rfl rfl).2⟩

/--
Claim C8: `getNgwords` answers an empty list with status 200 and leaves the
moderation-word cache untouched (neither read nor written) both when the
livestream lookup fails and when the requester is not the stream owner.
-/
theorem getNgwords_non_owner_empty
    (db : DB) (cache : Map Int (List NGWord)) (userID lsId : Int)
    (queryResult : Except DBErr (List NGWord)) :
    (∀ e, getLivestream db lsId = .error e →
        getNgwords db cache userID lsId queryResult = ⟨.okList [], cache, false⟩) ∧
    (∀ ls, getLivestream db lsId = .ok ls → ls.userId ≠ userID →
        getNgwords db cache userID lsId queryResult = ⟨.okList [], cache, false⟩) := by
  constructor
  · intro e hls
    rw [getNgwords.eq_def, hls]
  · intro ls hls hne
    rw [getNgwords.eq_def, hls]
    simp [hne]

/--
Witness for C8: a missing livestream and a non-owner requester each get an
empty 200 list while a populated cache entry stays untouched and unserved.
-/
theorem getNgwords_non_owner_empty_witness :
    (getNgwords ⟨[], [], []⟩ ⟨[(1, [⟨5, 7, 1, "w", 0⟩])]⟩ 7 1 (.ok []) =
      ⟨.okList [], ⟨[(1, [⟨5, 7, 1, "w", 0⟩])]⟩, false⟩) ∧
    (getNgwords ⟨[], [], [⟨1, 7⟩]⟩ ⟨[(1, [⟨5, 7, 1, "w", 0⟩])]⟩ 8 1 (.ok []) =
      ⟨.okList [], ⟨[(1, [⟨5, 7, 1, "w", 0⟩])]⟩, false⟩) :=
  ⟨(getNgwords_non_owner_empty ⟨[], [], []⟩ ⟨[(1, [⟨5, 7, 1, "w", 0⟩])]⟩ 7 1 (.ok [])).1
      .noRows rfl,
   (getNgwords_non_owner_empty ⟨[], [], [⟨1, 7⟩]⟩ ⟨[(1, [⟨5, 7, 1, "w", 0⟩])]⟩ 8 1
      (.ok [])).2 ⟨1, 7⟩ rfl (by decide)⟩

/--
Claim C3: an owner moderation write persists the word and deletes matching
comments inside the transaction, schedules the cache invalidation of the
stream's entry for commit time plus the fixed 500 ms sleep, and consequently a
`GetWords` call before that instant can still be served the pre-write cached
list while any `GetWords` call from that instant on gets the post-write
authoritative list, the new word included.
-/
theorem moderate_delayed_invalidation
    (db : DB) (cache : Map Int (List NGWord)) (ls : LivestreamModel)
    (userID lsId : Int) (word : String) (nowSec newWordId : Int) (T t : Nat)
    (ws : List NGWord) :
    getLivestream db lsId = .ok ls → ls.userId = userID →
    ((moderateHandler db userID lsId word nowSec newWordId T).cacheDeleteAt =
        some (T + 500, lsId)) ∧
    ((moderateHandler db userID lsId word nowSec newWordId T).db =
        moderateDbWrite db userID lsId word nowSec newWordId) ∧
    (cache.Load lsId = some ws → T ≤ t → t < T + 500 →
      (GetWords
          (dbVisibleAt db (moderateHandler db userID lsId word nowSec newWordId T).db T t)
          (cacheVisibleAt cache
            (moderateHandler db userID lsId word nowSec newWordId T).cacheDeleteAt t)
          lsId).1 = ws) ∧
    (T + 500 ≤ t →
      (GetWords
          (dbVisibleAt db (moderateHandler db userID lsId word nowSec newWordId T).db T t)
          (cacheVisibleAt cache
            (moderateHandler db userID lsId word nowSec newWordId T).cacheDeleteAt t)
          lsId).1 = fetchNgWords (moderateDbWrite db userID lsId word nowSec newWordId) lsId ∧
      (⟨newWordId, userID, lsId, word, nowSec⟩ : NGWord) ∈
        (GetWords
          (dbVisibleAt db (moderateHandler db userID lsId word nowSec newWordId T).db T t)
          (cacheVisibleAt cache
            (moderateHandler db userID lsId word nowSec newWordId T).cacheDeleteAt t)
          lsId).1) := by
  intro hls howner
  have hout : moderateHandler db userID lsId word nowSec newWordId T =
      ⟨.created newWordId, moderateDbWrite db userID lsId word nowSec newWordId,
        some (T + 500, lsId)⟩ := by
    rw [moderateHandler.eq_def, hls]
    simp [howner]
  refine ⟨by rw [hout], by rw [hout], ?_, ?_⟩
  · intro hload hT ht
    rw [hout]
    have hnot : ¬ T + 500 ≤ t := not_le.mpr ht
    simp [cacheVisibleAt, hnot, GetWords, hload]
  · intro ht
    rw [hout]
    have hT : T ≤ t := le_trans (Nat.le_add_right T 500) ht
    have hfetch :
        (GetWords (dbVisibleAt db (moderateDbWrite db userID lsId word nowSec newWordId) T t)
          (cacheVisibleAt cache (some (T + 500, lsId)) t) lsId).1 =
        fetchNgWords (moderateDbWrite db userID lsId word nowSec newWordId) lsId := by
      simp [cacheVisibleAt, ht, GetWords, Map.Load_Delete_self, dbVisibleAt, hT]
    refine ⟨hfetch, ?_⟩
    rw [hfetch]
    simp [fetchNgWords, moderateDbWrite, List.mem_filter]

/--
Witness for C3: on stream 1 (owner 7, one old word cached), a moderation write
of "bad" committing at instant 1000 leaves `GetWords` at instant 1100 serving
the old cached list, while at instant 1600 it serves the post-write
authoritative list.
-/
theorem moderate_delayed_invalidation_witness :
    ((GetWords
        (dbVisibleAt ⟨[⟨5, 7, 1, "old", 10⟩], [], [⟨1, 7⟩]⟩
          (moderateHandler ⟨[⟨5, 7, 1, "old", 10⟩], [], [⟨1, 7⟩]⟩ 7 1 "bad" 20 9 1000).db
          1000 1100)
        (cacheVisibleAt ⟨[(1, [⟨5, 7, 1, "old", 10⟩])]⟩
          (moderateHandler ⟨[⟨5, 7, 1, "old", 10⟩], [], [⟨1, 7⟩]⟩ 7 1 "bad" 20 9
            1000).cacheDeleteAt 1100)
        1).1 = [⟨5, 7, 1, "old", 10⟩]) ∧
    ((GetWords
        (dbVisibleAt ⟨[⟨5, 7, 1, "old", 10⟩], [], [⟨1, 7⟩]⟩
          (moderateHandler ⟨[⟨5, 7, 1, "old", 10⟩], [], [⟨1, 7⟩]⟩ 7 1 "bad" 20 9 1000).db
          1000 1600)
        (cacheVisibleAt ⟨[(1, [⟨5, 7, 1, "old", 10⟩])]⟩
          (moderateHandler ⟨[⟨5, 7, 1, "old", 10⟩], [], [⟨1, 7⟩]⟩ 7 1 "bad" 20 9
            1000).cacheDeleteAt 1600)
        1).1 =
      fetchNgWords (moderateDbWrite ⟨[⟨5, 7, 1, "old", 10⟩], [], [⟨1, 7⟩]⟩ 7 1 "bad" 20 9) 1) :=
  ⟨(moderate_delayed_invalidation ⟨[⟨5, 7, 1, "old", 10⟩], [], [⟨1, 7⟩]⟩
      ⟨[(1, [⟨5, 7, 1, "old", 10⟩])]⟩ ⟨1, 7⟩ 7 1 "bad" 20 9 1000 1100
      [⟨5, 7, 1, "old", 10⟩] rfl rfl).2.2.1 (by decide) (by decide) (by decide),
   ((moderate_delayed_invalidation ⟨[⟨5, 7, 1, "old", 10⟩], [], [⟨1, 7⟩]⟩
      ⟨[(1, [⟨5, 7, 1, "old", 10⟩])]⟩ ⟨1, 7⟩ 7 1 "bad" 20 9 1000 1600 [] rfl rfl).2.2.2
      (by decide)).1⟩

/--
Claim C10: a moderation request by a non-owner is answered with a 400, the
database is unchanged (no NG word persisted, no comment deleted) and no cache
invalidation is scheduled, so the stream's moderation-cache entry survives at
every later instant.
-/
theorem moderate_non_owner_unchanged
    (db : DB) (cache : Map Int (List NGWord)) (userID lsId : Int) (word : String)
    (nowSec newWordId : Int) (T t : Nat) (ls : LivestreamModel) :
    getLivestream db lsId = .ok ls → ls.userId ≠ userID →
    moderateHandler db userID lsId word nowSec newWordId T = ⟨.badRequest, db, none⟩ ∧
    cacheVisibleAt cache
      (moderateHandler db userID lsId word nowSec newWordId T).cacheDeleteAt t = cache := by
  intro hls hne
  have hout : moderateHandler db userID lsId word nowSec newWordId T =
      ⟨.badRequest, db, none⟩ := by
    rw [moderateHandler.eq_def, hls]
    simp [hne]
  exact ⟨hout, by rw [hout]; rfl⟩

/--
Witness for C10: user 8 moderating stream 1 (owned by user 7) receives a 400,
the database is untouched and the cached entry is still visible afterwards.
-/
theorem moderate_non_owner_unchanged_witness :
    moderateHandler ⟨[], [], [⟨1, 7⟩]⟩ 8 1 "bad" 20 9 1000 =
      ⟨.badRequest, ⟨[], [], [⟨1, 7⟩]⟩, none⟩ ∧
    cacheVisibleAt ⟨[(1, [⟨5, 7, 1, "w", 0⟩])]⟩
      (moderateHandler ⟨[], [], [⟨1, 7⟩]⟩ 8 1 "bad" 20 9 1000).cacheDeleteAt 9999 =
      ⟨[(1, [⟨5, 7, 1, "w", 0⟩])]⟩ :=
  moderate_non_owner_unchanged ⟨[], [], [⟨1, 7⟩]⟩ ⟨[(1, [⟨5, 7, 1, "w", 0⟩])]⟩ 8 1 "bad"
    20 9 1000 9999 ⟨1, 7⟩ rfl (by decide)

end Isupipe
